import Mathlib

/-!
Verification of the HOS (Hours-of-Service) trip simulator and daily-log
partitioner of the spotterai backend.

The development shallowly embeds the two algorithmic modules of the
repository:

* `routes/hos_calculator.py` — the `HOSCalculator` class: the trip
  simulator with its drive loop, rest/restart procedures and on-duty
  procedure; and
* `routes/views.py` — `generate_daily_logs`, `_fill_gaps` and
  `_calc_totals`: the calendar-day partitioner.

Numbers are modelled as exact rationals (`ℚ`); Python's `round(x, n)`
(round-half-to-even on the scaled value) is modelled explicitly by
`pyRound2` / `pyRound1`.  The Python `while` loop of `_drive` is modelled
by a fuel-indexed recursion `driveLoop`: for every fuel bound the embedded
loop performs exactly the iterations the Python loop performs, and returns
the current state when the fuel runs out (the theorems below quantify over
all fuel values or evaluate runs that terminate well within the bound).
Calendar dates are modelled as integer day offsets from the anchor date.
-/

set_option maxRecDepth 40000

namespace HOS

/-- Round-half-to-even to the nearest integer, as Python's built-in
`round` does on the scaled value. -/
def roundEven (q : ℚ) : ℤ :=
  if q - ⌊q⌋ < 1/2 then ⌊q⌋
  else if 1/2 < q - ⌊q⌋ then ⌊q⌋ + 1
  else if ⌊q⌋ % 2 = 0 then ⌊q⌋ else ⌊q⌋ + 1

/-- Python `round(x, 2)` on exact rationals. -/
def pyRound2 (q : ℚ) : ℚ := (roundEven (q * 100) : ℚ) / 100

/-- Python `round(x, 1)` on exact rationals. -/
def pyRound1 (q : ℚ) : ℚ := (roundEven (q * 10) : ℚ) / 10

theorem floor_le_roundEven (q : ℚ) : ⌊q⌋ ≤ roundEven q := by
  unfold roundEven
  split_ifs <;> omega

theorem roundEven_le_ceil (q : ℚ) : roundEven q ≤ ⌈q⌉ := by
  unfold roundEven
  have hfc : ⌊q⌋ ≤ ⌈q⌉ := Int.floor_le_ceil q
  have hle : (⌊q⌋ : ℚ) ≤ q := Int.floor_le q
  split_ifs with h1 h2 h3
  · exact hfc
  · -- the fractional part exceeds 1/2, so q is not an integer
    have hq : (⌊q⌋ : ℚ) < q := by linarith
    have : (⌊q⌋ : ℚ) < (⌈q⌉ : ℚ) := lt_of_lt_of_le hq (Int.le_ceil q)
    have : ⌊q⌋ < ⌈q⌉ := by exact_mod_cast this
    omega
  · exact hfc
  · have hq : (⌊q⌋ : ℚ) < q := by linarith
    have : (⌊q⌋ : ℚ) < (⌈q⌉ : ℚ) := lt_of_lt_of_le hq (Int.le_ceil q)
    have : ⌊q⌋ < ⌈q⌉ := by exact_mod_cast this
    omega

theorem abs_roundEven_sub (q : ℚ) : |(roundEven q : ℚ) - q| ≤ 1/2 := by
  unfold roundEven
  have hle : (⌊q⌋ : ℚ) ≤ q := Int.floor_le q
  have hlt : q < ⌊q⌋ + 1 := Int.lt_floor_add_one q
  split_ifs with h1 h2 h3 <;> rw [abs_le] <;> constructor <;> push_cast <;> linarith

theorem abs_pyRound2_sub (q : ℚ) : |pyRound2 q - q| ≤ 1/200 := by
  unfold pyRound2
  have h := abs_roundEven_sub (q * 100)
  have : (roundEven (q * 100) : ℚ) / 100 - q = ((roundEven (q * 100) : ℚ) - q * 100) / 100 := by
    ring
  rw [this, abs_div]
  rw [show |(100 : ℚ)| = 100 by norm_num]
  linarith [h]

theorem pyRound2_nonneg {q : ℚ} (h : 0 ≤ q) : 0 ≤ pyRound2 q := by
  unfold pyRound2
  have h100 : (0 : ℚ) ≤ q * 100 := by positivity
  have hf : (0 : ℤ) ≤ ⌊q * 100⌋ := Int.floor_nonneg.mpr h100
  have := floor_le_roundEven (q * 100)
  have : (0 : ℤ) ≤ roundEven (q * 100) := le_trans hf this
  positivity

/-- If `q ≤ n/100` for an integer bound, then the 2-decimal rounding of `q`
is still `≤ n/100` (rounding cannot overshoot an exact 2-decimal bound). -/
theorem pyRound2_le_of_le {q b : ℚ} (hb : ∃ n : ℤ, b = n / 100) (h : q ≤ b) :
    pyRound2 q ≤ b := by
  obtain ⟨n, rfl⟩ := hb
  unfold pyRound2
  have h100 : q * 100 ≤ n := by linarith
  have hceil : ⌈q * 100⌉ ≤ n := Int.ceil_le.mpr (by exact_mod_cast h100)
  have hre : roundEven (q * 100) ≤ n := le_trans (roundEven_le_ceil _) hceil
  have : (roundEven (q * 100) : ℚ) ≤ (n : ℚ) := by exact_mod_cast hre
  linarith

/-! Data model: events, as built by `_evt` in `hos_calculator.py`. -/

/-- The four duty statuses. -/
inductive Status where
  | driving
  | on_duty_not_driving
  | off_duty
  | sleeper_berth
deriving DecidableEq

/-- An event dict as produced by `HOSCalculator._evt`. -/
structure Event where
  status : Status
  clock : ℚ
  duration : ℚ
  description : String
  location : String
  distance : ℚ
  miles : Option ℚ
deriving DecidableEq

/-- Embeds `HOSCalculator._evt`: build an event, rounding `clock`/`duration` to two
decimals and `distance`/`miles` to one. -/
def evt (status : Status) (clock duration : ℚ) (description location : String)
    (distance : ℚ) (miles : Option ℚ) : Event :=
  { status := status
    clock := pyRound2 clock
    duration := pyRound2 duration
    description := description
    location := location
    distance := pyRound1 distance
    miles := miles.map pyRound1 }

/-! Regulatory constants of `HOSCalculator`. -/

def MAX_DRIVING : ℚ := 11
def MAX_DUTY_WINDOW : ℚ := 14
def BREAK_AFTER_DRIVING : ℚ := 8
def BREAK_DURATION : ℚ := 1/2
def REQUIRED_REST : ℚ := 10
def MAX_CYCLE : ℚ := 70
def RESTART_HOURS : ℚ := 34
def FUEL_INTERVAL : ℚ := 1000
def FUEL_DURATION : ℚ := 1/2
def PICKUP_DURATION : ℚ := 1
def DROPOFF_DURATION : ℚ := 1
def PRE_TRIP_DURATION : ℚ := 1/4
def POST_TRIP_DURATION : ℚ := 1/4
def START_HOUR : ℚ := 8

/-- Embeds `HOSCalculator.__init__`: `self.initial_cycle = min(current_cycle_used, MAX_CYCLE)`. -/
def initialCycle (currentCycleUsed : ℚ) : ℚ := min currentCycleUsed MAX_CYCLE

/-- Embeds `HOSCalculator._loc`: approximate location label along a segment. -/
def locOf (fromLoc toLoc : String) (total remaining : ℚ) : String :=
  if total ≤ 0 then fromLoc
  else
    let progress := (total - remaining) / total
    if progress < 1/10 then "Near " ++ fromLoc
    else if 9/10 < progress then "Near " ++ toLoc
    else "En route (" ++ toString ⌊progress * 100⌋ ++ "% " ++ fromLoc ++ " → " ++ toLoc ++ ")"

/-- The mutable scalar state threaded through the simulation, together with
the event list being built (`events` plus the local variables of
`calculate_trip` / `_drive`). -/
structure SimState where
  clock : ℚ
  shiftStart : ℚ
  shiftDriving : ℚ
  drivingSinceBreak : ℚ
  cycleHours : ℚ
  totalDistance : ℚ
  lastFuelDistance : ℚ
  events : List Event
deriving DecidableEq

/-- Embeds `HOSCalculator._rest`: emit a 10-hour `sleeper_berth` event and reset
the shift counters.  As at every Python call site, the caller's
`clock`/`shift_start`/`shift_driving`/`driving_since_break` are replaced by the
returned values and everything else is left alone. -/
def rest (location : String) (s : SimState) : SimState :=
  { s with
    events := s.events ++
      [evt .sleeper_berth s.clock REQUIRED_REST "10-hour rest period" location s.totalDistance none]
    clock := s.clock + REQUIRED_REST
    shiftStart := s.clock + REQUIRED_REST
    shiftDriving := 0
    drivingSinceBreak := 0 }

/-- Embeds `HOSCalculator._restart`: emit a 34-hour `sleeper_berth` event, zero the
cycle and reset the shift counters. -/
def restart (location : String) (s : SimState) : SimState :=
  { s with
    events := s.events ++
      [evt .sleeper_berth s.clock RESTART_HOURS "34-hour restart (70-hour cycle limit)" location s.totalDistance none]
    clock := s.clock + RESTART_HOURS
    cycleHours := 0
    shiftStart := s.clock + RESTART_HOURS
    shiftDriving := 0
    drivingSinceBreak := 0 }

/-- Embeds `HOSCalculator._do_on_duty`: insert a rest if the 14-hour window would be
exceeded, independently insert a restart if the cycle would be exceeded
(the cycle test reads the pre-activity `cycle_hours`, which the rest does
not modify), then emit the on-duty event. -/
def doOnDuty (duration : ℚ) (description location : String) (s : SimState) : SimState :=
  let s1 := if MAX_DUTY_WINDOW < (s.clock - s.shiftStart) + duration then rest location s else s
  let s2 := if MAX_CYCLE < s1.cycleHours + duration then restart location s1 else s1
  let s3 : SimState :=
    { s2 with
      events := s2.events ++
        [evt .on_duty_not_driving s2.clock duration description location s2.totalDistance none]
      clock := s2.clock + duration
      cycleHours := s2.cycleHours + duration }
  if BREAK_DURATION ≤ duration then { s3 with drivingSinceBreak := 0 } else s3

/-! The drive loop (`HOSCalculator._drive`).

The loop body is split into the four named checks, the drive-time
computation and the drive advance, exactly in the Python order. -/

/-- Embeds `_drive`, check 1: 70-hour cycle. -/
def cycleCheck (fromLoc toLoc : String) (segmentMiles remaining : ℚ) (s : SimState) : SimState :=
  if MAX_CYCLE ≤ s.cycleHours then restart (locOf fromLoc toLoc segmentMiles remaining) s else s

/-- Embeds `_drive`, check 2: 14-hour window / 11-hour driving limit. -/
def windowCheck (fromLoc toLoc : String) (segmentMiles remaining : ℚ) (s : SimState) : SimState :=
  if MAX_DUTY_WINDOW ≤ s.clock - s.shiftStart ∨ MAX_DRIVING ≤ s.shiftDriving then
    rest (locOf fromLoc toLoc segmentMiles remaining) s
  else s

/-- Embeds `_drive`, check 3: 30-minute break after 8 cumulative driving hours. -/
def breakCheck (fromLoc toLoc : String) (segmentMiles remaining : ℚ) (s : SimState) : SimState :=
  if BREAK_AFTER_DRIVING ≤ s.drivingSinceBreak then
    if s.clock - s.shiftStart + BREAK_DURATION < MAX_DUTY_WINDOW ∧ s.shiftDriving < MAX_DRIVING then
      { s with
        events := s.events ++
          [evt .off_duty s.clock BREAK_DURATION "30-minute break (8-hr driving limit)"
            (locOf fromLoc toLoc segmentMiles remaining) s.totalDistance none]
        clock := s.clock + BREAK_DURATION
        drivingSinceBreak := 0 }
    else rest (locOf fromLoc toLoc segmentMiles remaining) s
  else s

/-- Embeds `_drive`, check 4: fuel stop every 1000 miles (with a rest first when the
half-hour stop would not fit in the 14-hour window). -/
def fuelCheck (fromLoc toLoc : String) (segmentMiles remaining : ℚ) (s : SimState) : SimState :=
  if FUEL_INTERVAL ≤ s.totalDistance - s.lastFuelDistance then
    let s' := if MAX_DUTY_WINDOW < s.clock - s.shiftStart + FUEL_DURATION then
        rest (locOf fromLoc toLoc segmentMiles remaining) s
      else s
    { s' with
      events := s'.events ++
        [evt .on_duty_not_driving s'.clock FUEL_DURATION "Fueling stop"
          (locOf fromLoc toLoc segmentMiles remaining) s'.totalDistance none]
      clock := s'.clock + FUEL_DURATION
      cycleHours := s'.cycleHours + FUEL_DURATION
      lastFuelDistance := s'.totalDistance
      drivingSinceBreak := 0 }
  else s

/-- The state from which a driving event is emitted: the loop head state
after the four checks of `_drive` have run. -/
def preDriveState (fromLoc toLoc : String) (segmentMiles remaining : ℚ) (s : SimState) : SimState :=
  fuelCheck fromLoc toLoc segmentMiles remaining
    (breakCheck fromLoc toLoc segmentMiles remaining
      (windowCheck fromLoc toLoc segmentMiles remaining
        (cycleCheck fromLoc toLoc segmentMiles remaining s)))

/-- Embeds `_drive`, step 5: `can_drive`, the minimum of the six bounds, floored
at 0.01 h. -/
def canDriveCalc (avgSpeed remaining : ℚ) (s : SimState) : ℚ :=
  let tBreak := max (1/100) (BREAK_AFTER_DRIVING - s.drivingSinceBreak)
  let t11 := max (1/100) (MAX_DRIVING - s.shiftDriving)
  let t14 := max (1/100) (MAX_DUTY_WINDOW - (s.clock - s.shiftStart))
  let tCycle := max (1/100) (MAX_CYCLE - s.cycleHours)
  let tFuel := if 0 < avgSpeed then
      max (1/100) ((FUEL_INTERVAL - (s.totalDistance - s.lastFuelDistance)) / avgSpeed)
    else 999
  let tFinish := if 0 < avgSpeed then remaining / avgSpeed else 0
  max (1/100) (min tBreak (min t11 (min t14 (min tCycle (min tFuel tFinish)))))

/-- Embeds `_drive`, step 6: the bounded drive increment `(drive_miles, drive_time)`
(both still unrounded, exactly as they are when the `drive_time < 0.01`
safety test runs). -/
def driveCalc (avgSpeed remaining : ℚ) (s : SimState) : ℚ × ℚ :=
  let driveMiles := min (canDriveCalc avgSpeed remaining s * avgSpeed) remaining
  (driveMiles, if 0 < avgSpeed then driveMiles / avgSpeed else 0)

/-- One iteration of the `while` body of `_drive`, assuming the guard
`remaining > 0.5` already held.  Returns the new state, the new remaining
mileage, and `false` when the `drive_time < 0.01` safety branch fired. -/
def driveIter (fromLoc toLoc : String) (segmentMiles avgSpeed remaining : ℚ) (s : SimState) :
    SimState × ℚ × Bool :=
  let s4 := preDriveState fromLoc toLoc segmentMiles remaining s
  let dm := (driveCalc avgSpeed remaining s4).1
  let dt := (driveCalc avgSpeed remaining s4).2
  if dt < 1/100 then (s4, remaining, false)
  else
    let driveTime := pyRound2 dt
    let driveMiles := pyRound1 dm
    let s5 : SimState :=
      { s4 with
        events := s4.events ++
          [evt .driving s4.clock driveTime
            ("Driving " ++ toString driveMiles ++ " miles")
            (locOf fromLoc toLoc segmentMiles remaining) s4.totalDistance (some driveMiles)]
        clock := s4.clock + driveTime
        shiftDriving := s4.shiftDriving + driveTime
        drivingSinceBreak := s4.drivingSinceBreak + driveTime
        cycleHours := s4.cycleHours + driveTime
        totalDistance := s4.totalDistance + driveMiles }
    (s5, remaining - driveMiles, true)

/-- The `while remaining > 0.5` loop of `_drive`, as a fuel-indexed
recursion: with enough fuel it performs exactly the Python iterations. -/
def driveLoop (fromLoc toLoc : String) (segmentMiles avgSpeed : ℚ) :
    ℕ → ℚ → SimState → SimState
  | 0, _, s => s
  | Nat.succ fuel, remaining, s =>
    if 1/2 < remaining then
      match driveIter fromLoc toLoc segmentMiles avgSpeed remaining s with
      | (s', remaining', true) => driveLoop fromLoc toLoc segmentMiles avgSpeed fuel remaining' s'
      | (s', _, false) => s'
    else s

/-- The result dict of `HOSCalculator.calculate_trip`. -/
structure TripResult where
  events : List Event
  totalDistance : ℚ
  finalCycleHours : ℚ
deriving DecidableEq

/-- The tail of `calculate_trip`: the post-trip inspection followed by the
construction of the returned dict. -/
def postTrip (dropoffLoc : String) (s : SimState) : TripResult :=
  let s7 : SimState :=
    { s with
      events := s.events ++
        [evt .on_duty_not_driving s.clock POST_TRIP_DURATION "Post-trip inspection" dropoffLoc s.totalDistance none]
      clock := s.clock + POST_TRIP_DURATION
      cycleHours := s.cycleHours + POST_TRIP_DURATION }
  { events := s7.events
    totalDistance := pyRound1 s7.totalDistance
    finalCycleHours := pyRound2 s7.cycleHours }

/-- Embeds `HOSCalculator.calculate_trip` (after `__init__` clamped the cycle):
optional initial restart, pre-trip inspection, leg 1, pickup, leg 2,
dropoff, post-trip inspection. -/
def hosCalculateTrip (fuel : ℕ) (currentCycleUsed leg1Miles leg1Hours leg2Miles leg2Hours : ℚ)
    (currentLoc pickupLoc dropoffLoc : String) : TripResult :=
  let s0 : SimState :=
    { clock := START_HOUR, shiftStart := START_HOUR, shiftDriving := 0, drivingSinceBreak := 0
      cycleHours := initialCycle currentCycleUsed, totalDistance := 0, lastFuelDistance := 0
      events := [] }
  let s1 := if MAX_CYCLE ≤ s0.cycleHours then
      { s0 with
        events := s0.events ++
          [evt .sleeper_berth s0.clock RESTART_HOURS "34-hour restart (70-hour cycle limit reached)"
            currentLoc s0.totalDistance none]
        clock := s0.clock + RESTART_HOURS
        cycleHours := 0
        shiftStart := s0.clock + RESTART_HOURS }
    else s0
  let s2 : SimState :=
    { s1 with
      events := s1.events ++
        [evt .on_duty_not_driving s1.clock PRE_TRIP_DURATION "Pre-trip inspection" currentLoc s1.totalDistance none]
      clock := s1.clock + PRE_TRIP_DURATION
      cycleHours := s1.cycleHours + PRE_TRIP_DURATION }
  let s3 := if 1/2 < leg1Miles then
      driveLoop currentLoc pickupLoc leg1Miles
        (if 0 < leg1Hours then leg1Miles / leg1Hours else 55) fuel leg1Miles s2
    else s2
  let s4 := doOnDuty PICKUP_DURATION "Pickup / Loading" pickupLoc s3
  let s5 := if 1/2 < leg2Miles then
      driveLoop pickupLoc dropoffLoc leg2Miles
        (if 0 < leg2Hours then leg2Miles / leg2Hours else 55) fuel leg2Miles s4
    else s4
  let s6 := doOnDuty DROPOFF_DURATION "Dropoff / Unloading" dropoffLoc s5
  postTrip dropoffLoc s6

/-! The daily-log partitioner, from `routes/views.py`. -/

/-- A clipped activity row of a daily log. -/
structure Activity where
  status : Status
  startHour : ℚ
  endHour : ℚ
  duration : ℚ
  description : String
  location : String
deriving DecidableEq

/-- A remark entry of a daily log. -/
structure Remark where
  time : String
  status : Status
  text : String
  location : String
deriving DecidableEq

/-- The per-status totals dict of a daily log. -/
structure Totals where
  off_duty : ℚ
  sleeper_berth : ℚ
  driving : ℚ
  on_duty_not_driving : ℚ
deriving DecidableEq

/-- Computes `sum(totals.values())` in Python's insertion order. -/
def Totals.total (t : Totals) : ℚ :=
  t.off_duty + t.sleeper_berth + t.driving + t.on_duty_not_driving

/-- One generated daily log. The calendar date is modelled as the integer
day offset added to the anchor date. -/
structure DailyLog where
  day : ℕ
  date : ℤ
  totalMiles : ℚ
  activities : List Activity
  remarks : List Remark
  totals : Totals
deriving DecidableEq

/-- Stable insertion into a list sorted by `startHour` (equal keys keep
their original relative order, as Python's stable `list.sort` does). -/
def insertByStart (a : Activity) : List Activity → List Activity
  | [] => [a]
  | b :: bs => if a.startHour < b.startHour then a :: b :: bs else b :: insertByStart a bs

/-- Embeds `activities.sort(key=lambda x: x['start_hour'])`: a stable sort by
`startHour`. -/
def sortByStart : List Activity → List Activity
  | [] => []
  | a :: as' => insertByStart a (sortByStart as')

/-- Embeds `views._fill_gaps`: fill time gaps with `off_duty` activities. -/
def fillGaps (activities : List Activity) : List Activity :=
  match activities with
  | [] => [⟨.off_duty, 0, 24, 24, "Off Duty", ""⟩]
  | _ =>
    let sorted := sortByStart activities
    let fc := sorted.foldl (fun (p : List Activity × ℚ) act =>
      let filled := if p.2 + 1/100 < act.startHour then
          p.1 ++ [⟨.off_duty, pyRound2 p.2, pyRound2 act.startHour,
                   pyRound2 (act.startHour - p.2), "Off Duty", ""⟩]
        else p.1
      (filled ++ [act], act.endHour)) ([], 0)
    if fc.2 < 2399/100 then
      fc.1 ++ [⟨.off_duty, pyRound2 fc.2, 24, pyRound2 (24 - fc.2), "Off Duty", ""⟩]
    else fc.1

/-- The per-status accumulation loop of `views._calc_totals`. -/
def sumByStatus (activities : List Activity) : Totals :=
  activities.foldl (fun t a =>
    match a.status with
    | .off_duty => { t with off_duty := t.off_duty + a.duration }
    | .sleeper_berth => { t with sleeper_berth := t.sleeper_berth + a.duration }
    | .driving => { t with driving := t.driving + a.duration }
    | .on_duty_not_driving => { t with on_duty_not_driving := t.on_duty_not_driving + a.duration })
    ⟨0, 0, 0, 0⟩

/-- Embeds `views._calc_totals`: round the per-status sums, then push any residual
beyond 0.01 into `off_duty`. -/
def calcTotals (activities : List Activity) : Totals :=
  let raw := sumByStatus activities
  let r : Totals := ⟨pyRound2 raw.off_duty, pyRound2 raw.sleeper_berth,
                     pyRound2 raw.driving, pyRound2 raw.on_duty_not_driving⟩
  if 1/100 < |r.total - 24| then
    { r with off_duty := pyRound2 (r.off_duty + (24 - r.total)) }
  else r

/-- Two-digit zero-padded decimal rendering, as Python's `f"{n:02d}"` for
non-negative `n`. -/
def pad2 (n : ℕ) : String := if n < 10 then "0" ++ toString n else toString n

/-- Embeds `views.generate_daily_logs`: split the event list into calendar-day
logs, clipping events to day boundaries, filling gaps with `off_duty`,
and totalling per status. -/
def generateDailyLogs (events : List Event) (startDate : ℤ) : List DailyLog :=
  match events.getLast? with
  | none => []
  | some lastEvent =>
    let totalHours := lastEvent.clock + lastEvent.duration
    let numDays := (max 1 ⌈totalHours / 24⌉).toNat
    (List.range numDays).map (fun (dayIdx : ℕ) =>
      let dayStart : ℚ := (dayIdx : ℚ) * 24
      let dayEnd : ℚ := ((dayIdx : ℚ) + 1) * 24
      let acc := events.foldl (fun (acc : List Activity × ℚ × List Remark) event =>
        let evStart := event.clock
        let evEnd := event.clock + event.duration
        if evEnd ≤ dayStart ∨ dayEnd ≤ evStart then acc
        else
          let clippedStart := max evStart dayStart - dayStart
          let clippedEnd := min evEnd dayEnd - dayStart
          let clippedDuration := clippedEnd - clippedStart
          if clippedDuration < 1/100 then acc
          else
            let dayActs := acc.1 ++
              [⟨event.status, pyRound2 clippedStart, pyRound2 clippedEnd,
                pyRound2 clippedDuration, event.description, event.location⟩]
            let dayMiles := match event.miles with
              | some m => if m ≠ 0 ∧ dayStart ≤ evStart then acc.2.1 + m else acc.2.1
              | none => acc.2.1
            let dayRemarks := acc.2.2 ++
              [⟨pad2 ⌊clippedStart⌋.toNat ++ ":" ++ pad2 ⌊(clippedStart - ⌊clippedStart⌋) * 60⌋.toNat,
                event.status, event.description, event.location⟩]
            (dayActs, dayMiles, dayRemarks)) ([], 0, [])
      let filled := fillGaps acc.1
      { day := dayIdx + 1
        date := startDate + dayIdx
        totalMiles := pyRound1 acc.2.1
        activities := filled
        remarks := acc.2.2
        totals := calcTotals filled })

/-! Example inputs used by witnesses and counterexamples. -/

/-- A 30-hour single-event list: one driving event spanning hours 0–30. -/
def exEvents : List Event := [⟨Status.driving, 0, 30, "d", "L", 0, some 300⟩]

/-- A single 24-hour off-duty event. -/
def exOff : List Event := [⟨Status.off_duty, 0, 24, "x", "", 0, none⟩]

/-- The daily log generated from `exOff`. -/
def exLog : DailyLog where
  day := 1
  date := 0
  totalMiles := 0
  activities := [⟨Status.off_duty, 0, 24, 24, "x", ""⟩]
  remarks := [⟨"00:00", Status.off_duty, "x", ""⟩]
  totals := ⟨24, 0, 0, 0⟩

/-- A fresh simulation state at hour 8 with an empty event list. -/
def freshState : SimState where
  clock := 8
  shiftStart := 8
  shiftDriving := 0
  drivingSinceBreak := 0
  cycleHours := 0
  totalDistance := 0
  lastFuelDistance := 0
  events := []

/-- The loop state of `_drive` after one iteration of the run with
`cycleHoursUsed = 69.65`, leg 1 = 2000 miles in 0.1 h (average speed
20000 mph): 1000 miles have been driven in 0.05 h and the next fuelling
is due. -/
def fuelEdgeState : SimState where
  clock := 83/10
  shiftStart := 8
  shiftDriving := 1/20
  drivingSinceBreak := 1/20
  cycleHours := 1399/20
  totalDistance := 1000
  lastFuelDistance := 0
  events := []

/-! Claim theorems. -/

/-- C8: `_rest` appends exactly one 10-hour `sleeper_berth` event at the
current clock and location, advances the clock by 10 hours, makes the new
clock the shift start, zeroes `shiftDrivingHours` and `drivingSinceBreak`,
and leaves `cycleHours`, `totalDistance` and `lastFuelDistance` unchanged. -/
theorem rest_frame_effect (location : String) (s : SimState) :
    (rest location s).events = s.events ++
      [evt .sleeper_berth s.clock 10 "10-hour rest period" location s.totalDistance none] ∧
    (rest location s).clock = s.clock + 10 ∧
    (rest location s).shiftStart = (rest location s).clock ∧
    (rest location s).shiftDriving = 0 ∧
    (rest location s).drivingSinceBreak = 0 ∧
    (rest location s).cycleHours = s.cycleHours ∧
    (rest location s).totalDistance = s.totalDistance ∧
    (rest location s).lastFuelDistance = s.lastFuelDistance := by
  refine ⟨rfl, rfl, rfl, rfl, rfl, rfl, rfl, rfl⟩

/-- C6 counterexample: the constructor computes `min(current_cycle_used, 70)`,
which does not clamp from below — for the input `-5` the initial cycle
state is `-5 ∉ [0, 70]`, and the negative cycle value propagates to the
returned final cycle hours of a legless trip. -/
theorem initialCycle_not_clamped_below :
    initialCycle (-5) = -5 ∧ ¬ (0 ≤ initialCycle (-5)) ∧
    (hosCalculateTrip 1 (-5) 0 0 0 0 "A" "P" "D").finalCycleHours = -5/2 := by
  refine ⟨by with_unfolding_all decide, by with_unfolding_all decide, by with_unfolding_all decide⟩

/-- C6 (amended): the simulator clamps the cycle-hours input from above
only: the initial cycle state is `min(input, 70) ≤ 70`, and it lies within
`[0, 70]` whenever the input is non-negative; negative inputs pass through
unclamped. -/
theorem initialCycle_clamped_above (c : ℚ) :
    initialCycle c ≤ 70 ∧ (0 ≤ c → 0 ≤ initialCycle c ∧ initialCycle c ≤ 70) := by
  unfold initialCycle MAX_CYCLE
  exact ⟨min_le_right _ _, fun hc => ⟨le_min hc (by norm_num), min_le_right _ _⟩⟩

/-- C6 witness: the out-of-range input 100 is clamped into `[0, 70]`. -/
theorem initialCycle_clamped_above_witness :
    initialCycle 100 ≤ 70 ∧ 0 ≤ initialCycle 100 := by
  have h := initialCycle_clamped_above 100
  exact ⟨h.1, (h.2 (by norm_num)).1⟩

/-- C5: when a planned on-duty activity both overflows the 14-hour window
and overflows the 70-hour cycle, `_do_on_duty` inserts a 10-hour rest and
then a 34-hour restart back-to-back (the cycle test reading the
pre-activity cycle hours, which the rest leaves unchanged) before the
single on-duty event. -/
theorem doOnDuty_rest_then_restart (s : SimState) (d : ℚ) (description location : String)
    (h14 : MAX_DUTY_WINDOW < s.clock - s.shiftStart + d)
    (h70 : MAX_CYCLE < s.cycleHours + d) :
    (doOnDuty d description location s).events = s.events ++
      [evt .sleeper_berth s.clock 10 "10-hour rest period" location s.totalDistance none,
       evt .sleeper_berth (s.clock + 10) 34 "34-hour restart (70-hour cycle limit)" location s.totalDistance none,
       evt .on_duty_not_driving (s.clock + 44) d description location s.totalDistance none] ∧
    (doOnDuty d description location s).clock = s.clock + 44 + d := by
  simp only [doOnDuty, rest, restart, REQUIRED_REST, RESTART_HOURS, h14, h70, if_true]
  constructor
  · split_ifs <;> simp [List.append_assoc] <;>
      rw [show s.clock + 10 + 34 = s.clock + 44 from by ring]
  · split_ifs <;> show s.clock + 10 + 34 + d = s.clock + 44 + d <;> ring

/-- C5 witness: a concrete state (clock 23, shift start 8, cycle 69.5) for
which a 1-hour activity overflows both limits, producing exactly the three
events rest–restart–activity. -/
theorem doOnDuty_rest_then_restart_witness :
    (doOnDuty 1 "Pickup / Loading" "P"
        { freshState with clock := 23, cycleHours := 139/2 }).events =
      [evt .sleeper_berth 23 10 "10-hour rest period" "P" 0 none,
       evt .sleeper_berth 33 34 "34-hour restart (70-hour cycle limit)" "P" 0 none,
       evt .on_duty_not_driving 67 1 "Pickup / Loading" "P" 0 none] := by
  have h := doOnDuty_rest_then_restart
    { freshState with clock := 23, cycleHours := 139/2 } 1 "Pickup / Loading" "P"
    (by unfold MAX_DUTY_WINDOW freshState; norm_num)
    (by unfold MAX_CYCLE freshState; norm_num)
  refine h.1.trans ?_
  with_unfolding_all decide

/-- The cycle hours after `_do_on_duty`: the pre-activity cycle (zeroed if a
restart fired) plus the activity duration. -/
theorem doOnDuty_cycleHours (d : ℚ) (description location : String) (s : SimState) :
    (doOnDuty d description location s).cycleHours =
      (if MAX_CYCLE < s.cycleHours + d then 0 else s.cycleHours) + d := by
  simp only [doOnDuty, rest, restart]
  split_ifs <;> rfl

/-- The final-cycle computation after the dropoff on-duty procedure is
bounded by 70.25. -/
theorem pyRound2_dropoff_bound (x : ℚ) :
    pyRound2 ((if MAX_CYCLE < x + DROPOFF_DURATION then 0 else x)
      + DROPOFF_DURATION + POST_TRIP_DURATION) ≤ 281/4 := by
  apply pyRound2_le_of_le ⟨7025, by norm_num⟩
  unfold MAX_CYCLE DROPOFF_DURATION POST_TRIP_DURATION
  split_ifs with h
  · norm_num
  · push_neg at h
    linarith

/-- C9: the returned `final_cycle_hours` is not capped at 70 — a concrete
legless trip with `cycleHoursUsed = 67.75` ends at 70.25 — yet for every
input (any fuel bound, cycle input, leg data and locations) it is at most
70.25, because the dropoff on-duty procedure re-establishes
`cycleHours ≤ 70` and only the 0.25-hour post-trip inspection follows. -/
theorem finalCycleHours_le_70_25 :
    (∀ (fuel : ℕ) (cu l1m l1h l2m l2h : ℚ) (a p d : String),
      (hosCalculateTrip fuel cu l1m l1h l2m l2h a p d).finalCycleHours ≤ 281/4) ∧
    70 < (hosCalculateTrip 1 (271/4) 0 0 0 0 "A" "P" "D").finalCycleHours ∧
    (hosCalculateTrip 1 (271/4) 0 0 0 0 "A" "P" "D").finalCycleHours = 281/4 := by
  refine ⟨?_, by with_unfolding_all decide, by with_unfolding_all decide⟩
  intro fuel cu l1m l1h l2m l2h a p d
  simp only [hosCalculateTrip, postTrip]
  rw [doOnDuty_cycleHours]
  exact pyRound2_dropoff_bound _

/-- C10: the partitioner returns no daily logs for an empty event list (no
synthetic 24-hour day is produced), and at least one log for every
non-empty event list. -/
theorem generateDailyLogs_empty_iff :
    (∀ d : ℤ, generateDailyLogs [] d = []) ∧
    (∀ (events : List Event) (d : ℤ), events ≠ [] → generateDailyLogs events d ≠ []) := by
  constructor
  · intro d; rfl
  · intro events d h
    cases hl : events.getLast? with
    | none => exact absurd (List.getLast?_eq_none_iff.mp hl) h
    | some e =>
      unfold generateDailyLogs
      rw [hl]
      intro hcon
      have hlen := congrArg List.length hcon
      simp only [List.length_map, List.length_range, List.length_nil] at hlen
      omega

/-- C10 witness: the empty list yields no logs; the one-event list `exOff`
yields a non-empty log list. -/
theorem generateDailyLogs_empty_iff_witness :
    generateDailyLogs [] 0 = [] ∧ generateDailyLogs exOff 0 ≠ [] :=
  ⟨generateDailyLogs_empty_iff.1 0,
   generateDailyLogs_empty_iff.2 exOff 0 (List.cons_ne_nil _ _)⟩

/-- C3: for every non-empty event list the partitioner yields exactly
`max(1, ceil((lastEvent.clock + lastEvent.duration)/24))` daily logs,
numbered from 1; and on the 30-hour example list the second of the two
logs holds 6 clipped driving hours plus 18 gap-filled off-duty hours,
its totals summing to 24. -/
theorem generateDailyLogs_count_and_numbering :
    (∀ (events : List Event) (startDate : ℤ) (h : events ≠ []),
      (generateDailyLogs events startDate).length =
        (max 1 ⌈((events.getLast h).clock + (events.getLast h).duration) / 24⌉).toNat ∧
      (generateDailyLogs events startDate).map (fun l => l.day) =
        List.range' 1 (generateDailyLogs events startDate).length) ∧
    (generateDailyLogs exEvents 0).map (fun l => l.day) = [1, 2] ∧
    (generateDailyLogs exEvents 0).map
      (fun l => (l.totals.driving, l.totals.off_duty, l.totals.total)) =
      [(24, 0, 24), (6, 18, 24)] ∧
    (generateDailyLogs exEvents 0).map
      (fun l => l.activities.map (fun a => (a.status, a.startHour, a.endHour, a.duration))) =
      [[(Status.driving, 0, 24, 24)],
       [(Status.driving, 0, 6, 6), (Status.off_duty, 6, 24, 18)]] := by
  refine ⟨?_, by with_unfolding_all decide, by with_unfolding_all decide,
    by with_unfolding_all decide⟩
  intro events startDate h
  have hl : events.getLast? = some (events.getLast h) := List.getLast?_eq_getLast events h
  constructor
  · unfold generateDailyLogs
    rw [hl]
    simp
  · unfold generateDailyLogs
    rw [hl]
    simp only [List.map_map, List.length_map, List.length_range, List.range'_eq_map_range]
    apply List.map_congr_left
    intro a _
    simp [Function.comp]
    omega

/-- C3 witness: instantiated on the 30-hour example list, the count formula
evaluates to 2 and the day numbers are `[1, 2]`. -/
theorem generateDailyLogs_count_witness :
    (generateDailyLogs exEvents 0).length = 2 ∧
    (generateDailyLogs exEvents 0).map (fun l => l.day) =
      List.range' 1 (generateDailyLogs exEvents 0).length := by
  have h := generateDailyLogs_count_and_numbering.1 exEvents 0 (List.cons_ne_nil _ _)
  exact ⟨h.1.trans (by with_unfolding_all decide), h.2⟩

/-- The residual correction of `_calc_totals` always leaves the four totals
within 0.01 of 24. -/
theorem calcTotals_total_close (activities : List Activity) :
    |(calcTotals activities).total - 24| ≤ 1/100 := by
  simp only [calcTotals]
  set r : Totals := ⟨pyRound2 (sumByStatus activities).off_duty,
    pyRound2 (sumByStatus activities).sleeper_berth,
    pyRound2 (sumByStatus activities).driving,
    pyRound2 (sumByStatus activities).on_duty_not_driving⟩ with hr
  split_ifs with h
  · have hy := abs_pyRound2_sub (r.off_duty + (24 - r.total))
    have hshape :
        ({ r with off_duty := pyRound2 (r.off_duty + (24 - r.total)) } : Totals).total - 24 =
          pyRound2 (r.off_duty + (24 - r.total)) - (r.off_duty + (24 - r.total)) := by
      unfold Totals.total
      ring_nf
    rw [hshape]
    have : |pyRound2 (r.off_duty + (24 - r.total)) - (r.off_duty + (24 - r.total))| ≤ 1/200 := hy
    linarith [abs_le.mp this]
  · push_neg at h
    exact h

/-- C2: every daily log produced by the partitioner — for every event list
and anchor date, including the last partial day — has its four status
totals summing to 24 within 0.01, thanks to gap filling and the residual
correction into `off_duty`. -/
theorem dailyLog_totals_sum_24 (events : List Event) (startDate : ℤ) (log : DailyLog)
    (hlog : log ∈ generateDailyLogs events startDate) :
    |log.totals.total - 24| ≤ 1/100 := by
  unfold generateDailyLogs at hlog
  cases hl : events.getLast? with
  | none =>
    rw [hl] at hlog
    simp at hlog
  | some e =>
    rw [hl] at hlog
    obtain ⟨i, hi, rfl⟩ := List.mem_map.mp hlog
    exact calcTotals_total_close _

/-- C2 witness: on the concrete one-event list `exOff`, the produced log has
totals summing to 24 within 0.01. -/
theorem dailyLog_totals_sum_24_witness : |exLog.totals.total - 24| ≤ 1/100 :=
  dailyLog_totals_sum_24 exOff 0 exLog (by with_unfolding_all decide)

/-! Drive-loop bounds, for claims C1 and C4. -/

theorem canDriveCalc_ge (speed rem : ℚ) (s : SimState) : 1/100 ≤ canDriveCalc speed rem s :=
  le_max_left _ _

theorem cycleCheck_lt (fl tl : String) (seg rem : ℚ) (s : SimState) :
    (cycleCheck fl tl seg rem s).cycleHours < 70 ∧
    (cycleCheck fl tl seg rem s).totalDistance = s.totalDistance ∧
    (cycleCheck fl tl seg rem s).lastFuelDistance = s.lastFuelDistance := by
  simp only [cycleCheck, restart, MAX_CYCLE]
  split_ifs with h
  · refine ⟨by norm_num, rfl, rfl⟩
  · exact ⟨by linarith [not_le.mp h], rfl, rfl⟩

theorem windowCheck_bounds (fl tl : String) (seg rem : ℚ) (s : SimState) :
    (windowCheck fl tl seg rem s).clock - (windowCheck fl tl seg rem s).shiftStart < 14 ∧
    (windowCheck fl tl seg rem s).shiftDriving < 11 ∧
    (windowCheck fl tl seg rem s).cycleHours = s.cycleHours ∧
    (windowCheck fl tl seg rem s).totalDistance = s.totalDistance ∧
    (windowCheck fl tl seg rem s).lastFuelDistance = s.lastFuelDistance := by
  simp only [windowCheck, rest, MAX_DUTY_WINDOW, MAX_DRIVING]
  split_ifs with h
  · refine ⟨by norm_num, by norm_num, rfl, rfl, rfl⟩
  · push_neg at h
    exact ⟨h.1, h.2, rfl, rfl, rfl⟩

theorem breakCheck_bounds (fl tl : String) (seg rem : ℚ) (s : SimState)
    (h14 : s.clock - s.shiftStart < 14) (h11 : s.shiftDriving < 11) :
    (breakCheck fl tl seg rem s).clock - (breakCheck fl tl seg rem s).shiftStart < 14 ∧
    (breakCheck fl tl seg rem s).shiftDriving < 11 ∧
    (breakCheck fl tl seg rem s).drivingSinceBreak ≤ 8 ∧
    (breakCheck fl tl seg rem s).cycleHours = s.cycleHours ∧
    (breakCheck fl tl seg rem s).totalDistance = s.totalDistance ∧
    (breakCheck fl tl seg rem s).lastFuelDistance = s.lastFuelDistance := by
  simp only [breakCheck, rest, BREAK_AFTER_DRIVING, BREAK_DURATION, MAX_DUTY_WINDOW, MAX_DRIVING]
  split_ifs with h hfit
  · refine ⟨by linarith [hfit.1], hfit.2, by norm_num, rfl, rfl, rfl⟩
  · refine ⟨by norm_num, by norm_num, by norm_num, rfl, rfl, rfl⟩
  · push_neg at h
    exact ⟨h14, h11, le_of_lt h, rfl, rfl, rfl⟩

theorem fuelCheck_bounds (fl tl : String) (seg rem : ℚ) (s : SimState)
    (h14 : s.clock - s.shiftStart < 14) (h11 : s.shiftDriving < 11)
    (h8 : s.drivingSinceBreak ≤ 8) (h70 : s.cycleHours < 70) :
    (fuelCheck fl tl seg rem s).clock - (fuelCheck fl tl seg rem s).shiftStart ≤ 14 ∧
    (fuelCheck fl tl seg rem s).shiftDriving ≤ 11 ∧
    (fuelCheck fl tl seg rem s).drivingSinceBreak ≤ 8 ∧
    (fuelCheck fl tl seg rem s).cycleHours < 70 + 1/2 := by
  simp only [fuelCheck, rest, FUEL_INTERVAL, FUEL_DURATION, MAX_DUTY_WINDOW]
  split_ifs with hf hrest
  · refine ⟨by norm_num, by norm_num, by norm_num, by linarith⟩
  · push_neg at hrest
    refine ⟨by linarith, le_of_lt h11, by norm_num, by linarith⟩
  · exact ⟨le_of_lt h14, le_of_lt h11, h8, by linarith⟩

/-- C1 (amended): at the state from which every driving event is emitted
(the loop-head state after the four checks of `_drive`),
`drivingSinceBreak ≤ 8`, `shiftDrivingHours ≤ 11` and
`clock − shiftStart ≤ 14` hold for every input state; `cycleHours`,
however, is only bounded by `70 + 0.5`, because a fuel stop inserted
after the cycle check can add its half hour without a re-check. -/
theorem preDrive_bounds (fl tl : String) (seg rem : ℚ) (s : SimState) :
    (preDriveState fl tl seg rem s).drivingSinceBreak ≤ 8 ∧
    (preDriveState fl tl seg rem s).shiftDriving ≤ 11 ∧
    (preDriveState fl tl seg rem s).clock - (preDriveState fl tl seg rem s).shiftStart ≤ 14 ∧
    (preDriveState fl tl seg rem s).cycleHours < 70 + 1/2 := by
  unfold preDriveState
  have hc := cycleCheck_lt fl tl seg rem s
  have hw := windowCheck_bounds fl tl seg rem (cycleCheck fl tl seg rem s)
  have hb := breakCheck_bounds fl tl seg rem _ hw.1 hw.2.1
  have hf := fuelCheck_bounds fl tl seg rem _ hb.1 hb.2.1 hb.2.2.1
    (by rw [hb.2.2.2.1, hw.2.2.1]; exact hc.1)
  exact ⟨hf.2.2.1, hf.2.1, hf.1, hf.2.2.2⟩

/-- C1 counterexample: in the run with `cycleHoursUsed = 69.65` and a
2000-mile leg flown at average speed 20000 mph, the first loop iteration
(from the post-pre-trip state, clock 8.25, cycle 69.9) drives 1000 miles
and reaches `fuelEdgeState`; the second iteration inserts the fuel stop,
raising the cycle to 70.45, and then emits a driving event from that
state — a driving event whose start state has `cycleHours > 70`,
refuting the claimed `cycleHours ≤ 70` bound. -/
theorem driving_event_cycle_above_70 :
    70 < (preDriveState "A" "P" 2000 1000 fuelEdgeState).cycleHours ∧
    (driveIter "A" "P" 2000 20000 1000 fuelEdgeState).2.2 = true ∧
    (driveIter "A" "P" 2000 20000 1000 fuelEdgeState).1.events.map
      (fun e => (e.status, e.clock)) =
      [(Status.on_duty_not_driving, 83/10), (Status.driving, 44/5)] ∧
    (driveIter "A" "P" 2000 20000 2000
        { freshState with clock := 33/4, cycleHours := 699/10 }) =
      ({ fuelEdgeState with events :=
          [evt .driving (33/4) (1/20) "Driving 1000 miles" "Near A" 0 (some 1000)] },
        1000, true) := by
  with_unfolding_all decide

/-- C4 (amended): with a positive average speed, the `drive_time < 0.01`
safety branch fires in a loop iteration exactly when the remaining
mileage is below `0.01 · avgSpeed` — it is reachable (the floors of step 5
do not protect the `remaining`-capped branch), and when it fires with
`remaining > 0.5` the loop terminates leaving the segment truncated. -/
theorem driveTime_lt_iff (speed rem : ℚ) (s : SimState) (h : 0 < speed) :
    (driveCalc speed rem s).2 < 1/100 ↔ rem < 1/100 * speed := by
  simp only [driveCalc]
  rw [if_pos h, div_lt_iff₀ h, min_lt_iff]
  have hc : 1/100 * speed ≤ canDriveCalc speed rem s * speed :=
    mul_le_mul_of_nonneg_right (canDriveCalc_ge speed rem s) (le_of_lt h)
  constructor
  · rintro (h1 | h2)
    · exact absurd h1 (not_lt.mpr (by linarith))
    · linarith
  · intro hlt
    right
    linarith

/-- C4 witness: at speed 100 mph with 0.6 miles remaining, the safety
branch fires (`0.6 < 0.01 · 100`), instantiating the characterisation. -/
theorem driveTime_lt_iff_witness :
    (driveCalc 100 (3/5) freshState).2 < 1/100 ↔ (3:ℚ)/5 < 1/100 * 100 :=
  driveTime_lt_iff 100 (3/5) freshState (by norm_num)

/-- C4 counterexample: a 0.6-mile segment at 100 mph (positive speed)
makes the loop hit the `drive_time < 0.01` branch on its first iteration
— the loop terminates with the state unchanged, leaving 0.6 > 0.5 miles
of the segment undriven, so the branch is reachable. -/
theorem safety_stop_reachable :
    (0:ℚ) < 100 ∧ ((1:ℚ)/2 < 3/5) ∧
    (driveCalc 100 (3/5) (preDriveState "A" "B" (3/5) (3/5) freshState)).2 < 1/100 ∧
    driveLoop "A" "B" (3/5) 100 5 (3/5) freshState = freshState := by
  with_unfolding_all decide

/-! Monotonicity invariants, for claim C7. -/

/-- The claimed state invariant, strengthened with `0 ≤ drivingSinceBreak`
(needed to push it through the transitions that reset the break counter). -/
def Inv (s : SimState) : Prop :=
  0 ≤ s.drivingSinceBreak ∧ s.drivingSinceBreak ≤ s.shiftDriving ∧
    s.shiftDriving ≤ s.clock - s.shiftStart

theorem inv_rest (location : String) (s : SimState) : Inv (rest location s) := by
  unfold Inv rest
  norm_num

theorem inv_restart (location : String) (s : SimState) : Inv (restart location s) := by
  unfold Inv restart
  norm_num

theorem inv_onDuty (d : ℚ) (hd : 0 ≤ d) (description location : String) (s : SimState)
    (hs : Inv s) : Inv (doOnDuty d description location s) := by
  obtain ⟨h1, h2, h3⟩ := hs
  have hr := inv_rest location s
  have hrr := inv_restart location (rest location s)
  have hrr' := inv_restart location s
  simp only [doOnDuty, rest, restart] at *
  unfold Inv at *
  split_ifs at * <;> simp at *
  all_goals repeat' apply And.intro
  all_goals linarith

theorem inv_cycleCheck (fl tl : String) (seg rem : ℚ) (s : SimState) (hs : Inv s) :
    Inv (cycleCheck fl tl seg rem s) := by
  unfold cycleCheck
  split_ifs
  · exact inv_restart _ _
  · exact hs

theorem inv_windowCheck (fl tl : String) (seg rem : ℚ) (s : SimState) (hs : Inv s) :
    Inv (windowCheck fl tl seg rem s) := by
  unfold windowCheck
  split_ifs
  · exact inv_rest _ _
  · exact hs

theorem inv_breakCheck (fl tl : String) (seg rem : ℚ) (s : SimState) (hs : Inv s) :
    Inv (breakCheck fl tl seg rem s) := by
  obtain ⟨h1, h2, h3⟩ := hs
  simp only [breakCheck, BREAK_DURATION]
  split_ifs
  · unfold Inv
    refine ⟨le_refl 0, by simpa using le_trans h1 h2, by simp; linarith⟩
  · exact inv_rest _ _
  · exact ⟨h1, h2, h3⟩

theorem inv_fuelCheck (fl tl : String) (seg rem : ℚ) (s : SimState) (hs : Inv s) :
    Inv (fuelCheck fl tl seg rem s) := by
  have hr := inv_rest (locOf fl tl seg rem) s
  obtain ⟨r1, r2, r3⟩ := hr
  obtain ⟨h1, h2, h3⟩ := hs
  simp only [fuelCheck, FUEL_DURATION]
  split_ifs
  · unfold Inv
    refine ⟨le_refl 0, by simpa using le_trans r1 r2, by simp; linarith⟩
  · unfold Inv
    refine ⟨le_refl 0, by simpa using le_trans h1 h2, by simp; linarith⟩
  · exact ⟨h1, h2, h3⟩

theorem inv_preDriveState (fl tl : String) (seg rem : ℚ) (s : SimState) (hs : Inv s) :
    Inv (preDriveState fl tl seg rem s) :=
  inv_fuelCheck _ _ _ _ _ (inv_breakCheck _ _ _ _ _ (inv_windowCheck _ _ _ _ _
    (inv_cycleCheck _ _ _ _ _ hs)))

theorem driveCalc_time_nonneg (speed rem : ℚ) (s : SimState) (h : 0 < speed) (hrem : 0 ≤ rem) :
    0 ≤ (driveCalc speed rem s).2 := by
  simp only [driveCalc]
  rw [if_pos h]
  apply div_nonneg _ (le_of_lt h)
  refine le_min ?_ hrem
  have := canDriveCalc_ge speed rem s
  nlinarith

theorem inv_driveIter (fl tl : String) (seg speed rem : ℚ) (s : SimState)
    (h : 0 < speed) (hrem : 0 ≤ rem) (hs : Inv s) :
    Inv (driveIter fl tl seg speed rem s).1 := by
  have hs4 := inv_preDriveState fl tl seg rem s hs
  obtain ⟨h1, h2, h3⟩ := hs4
  have hdt : 0 ≤ pyRound2 (driveCalc speed rem (preDriveState fl tl seg rem s)).2 :=
    pyRound2_nonneg (driveCalc_time_nonneg speed rem _ h hrem)
  simp only [driveIter]
  split_ifs
  · exact ⟨h1, h2, h3⟩
  · unfold Inv
    refine ⟨by simp; linarith, by simp; linarith, by simp; linarith⟩

theorem inv_driveLoop (fl tl : String) (seg speed : ℚ) (h : 0 < speed) :
    ∀ (fuel : ℕ) (rem : ℚ) (s : SimState), Inv s →
      Inv (driveLoop fl tl seg speed fuel rem s) := by
  intro fuel
  induction fuel with
  | zero => exact fun rem s hs => hs
  | succ n ih =>
    intro rem s hs
    show Inv (if 1/2 < rem then _ else s)
    split_ifs with hrem
    · rcases hit : driveIter fl tl seg speed rem s with ⟨s', rem', b⟩
      have hs' : Inv s' := by
        have := inv_driveIter fl tl seg speed rem s h (by linarith) hs
        rw [hit] at this
        exact this
      cases b with
      | true => simp only [hit]; exact ih rem' s' hs'
      | false => simp only [hit]; exact hs'
    · exact hs

/-- C7: every state transition of the simulation — 10-hour rest, 34-hour
restart, on-duty activity (including pickup, dropoff and fuelling, all of
non-negative duration), the cycle/window/break/fuel checks of the drive
loop, a full drive-loop iteration with its drive increment, and the whole
drive loop — preserves the invariant `drivingSinceBreak ≤ shiftDrivingHours`
and `shiftDrivingHours ≤ clock − shiftStart` (strengthened by
`0 ≤ drivingSinceBreak`), and the initial trip state satisfies it. -/
theorem transitions_preserve_inv (fl tl description location : String)
    (seg speed rem d : ℚ) (s : SimState) (hs : Inv s) :
    Inv (rest location s) ∧
    Inv (restart location s) ∧
    (0 ≤ d → Inv (doOnDuty d description location s)) ∧
    Inv (cycleCheck fl tl seg rem s) ∧
    Inv (windowCheck fl tl seg rem s) ∧
    Inv (breakCheck fl tl seg rem s) ∧
    Inv (fuelCheck fl tl seg rem s) ∧
    (0 < speed → 0 ≤ rem → Inv (driveIter fl tl seg speed rem s).1) ∧
    (0 < speed → ∀ (fuel : ℕ) (rem' : ℚ), Inv (driveLoop fl tl seg speed fuel rem' s)) ∧
    Inv freshState :=
  ⟨inv_rest _ _, inv_restart _ _,
   fun hd => inv_onDuty d hd _ _ _ hs,
   inv_cycleCheck _ _ _ _ _ hs, inv_windowCheck _ _ _ _ _ hs,
   inv_breakCheck _ _ _ _ _ hs, inv_fuelCheck _ _ _ _ _ hs,
   fun hsp hrem => inv_driveIter _ _ _ _ _ _ hsp hrem hs,
   fun hsp fuel rem' => inv_driveLoop _ _ _ _ hsp fuel rem' s hs,
   ⟨le_refl 0, le_refl 0, by unfold freshState; norm_num⟩⟩

/-- C7 witness: instantiated at the fresh initial state with the pickup
activity and a concrete drive-loop call. -/
theorem transitions_preserve_inv_witness :
    Inv (rest "L" freshState) ∧ Inv (doOnDuty 1 "Pickup / Loading" "L" freshState) ∧
    Inv (driveLoop "A" "B" 100 50 3 100 freshState) := by
  have h := transitions_preserve_inv "A" "B" "Pickup / Loading" "L" 100 50 100 1 freshState
    ⟨le_refl 0, le_refl 0, by unfold freshState; norm_num⟩
  exact ⟨h.1, h.2.2.1 (by norm_num), h.2.2.2.2.2.2.2.2.1 (by norm_num) 3 100⟩

end HOS
